import Mathlib

/-!
Shallow embedding of `src/app.py` (a Streamlit expense tracker backed by a
Google Sheets worksheet) and proofs about its storage and query operations.

Modelling conventions:
* A worksheet is a list of rows; a row is a list of cells.  `ws.get_all_values()`
  is the list itself.  A cell written by the program is either a string or the
  numeric value `float(amount)`; we keep numerics exact as rationals
  (`pandas.to_numeric` recovers the written float, which the spec words as
  "equal within floating-point tolerance", and we model that recovery exactly).
* `ws.update("A{r}:G{r}", [row])` overwrites the first seven cells of row `r`
  (1-indexed), keeping any cells beyond column G, and extends the sheet with
  empty rows when `r` is past the end.
* `pandas.to_datetime(..., errors="coerce")` is modelled on the ISO
  `YYYY-MM-DD` form that `str(datetime.date)` produces (the only form the
  program itself writes); any other cell parses to `none` and the row is
  dropped, exactly as `dropna(subset=["date"])` does.
* `pandas.to_numeric(..., errors="coerce").fillna(0.0)` is modelled by a
  decimal parser on string cells, defaulting to `0` on failure.
* Python's `s.strip().lower()` used for the header check is implemented on
  character lists so that everything evaluates inside the kernel.
-/

namespace FitTrack

/-- A spreadsheet cell: a raw string, or a numeric cell as written by
`ws.update` when the program stores `float(amount)`. -/
inductive Cell where
  | str (s : String)
  | num (q : ℚ)
deriving DecidableEq, Repr

/-- A worksheet: the rows returned by `ws.get_all_values()`. -/
abbrev Store := List (List Cell)

/-- The fixed schema, `COLUMNS` in `app.py`. -/
def COLUMNS : List String :=
  ["date", "category", "description", "amount", "payment_method", "frequency", "notes"]

/-- The header row that `get_worksheet` forces into `A1:G1`. -/
def headerCells : List Cell := COLUMNS.map Cell.str

/-! ### Character-level helpers (digits, splitting, strip/lower) -/

/-- Decimal digit character for `k ≤ 9` (anything larger clamps to `'9'`,
which never happens on the in-range inputs we use). -/
def digitChar (k : ℕ) : Char :=
  if k = 0 then '0' else if k = 1 then '1' else if k = 2 then '2'
  else if k = 3 then '3' else if k = 4 then '4' else if k = 5 then '5'
  else if k = 6 then '6' else if k = 7 then '7' else if k = 8 then '8' else '9'

/-- Numeric value of a decimal digit character, `none` on non-digits. -/
def digitVal? (c : Char) : Option ℕ :=
  if '0' ≤ c ∧ c ≤ '9' then some (c.toNat - 48) else none

/-- Parse a non-empty all-digit character list as a natural number. -/
def natFromDigits (l : List Char) : Option ℕ :=
  if l.isEmpty then none
  else
    l.foldl
      (fun acc c =>
        match acc, digitVal? c with
        | some a, some v => some (10 * a + v)
        | _, _ => none)
      (some 0)

/-- Split a character list on a separator character (like `str.split(sep)`):
`n` separators yield `n + 1` (possibly empty) chunks. -/
def splitOnSep (sep : Char) : List Char → List (List Char)
  | [] => [[]]
  | c :: rest =>
    let r := splitOnSep sep rest
    if c = sep then [] :: r
    else
      match r with
      | [] => [[c]]
      | h :: t => (c :: h) :: t

/-- Whitespace recognised by the header normalisation (models `str.strip`). -/
def isSpaceChar (c : Char) : Bool :=
  c = ' ' || c = '\t' || c = '\n' || c = '\r'

/-- ASCII lower-casing of one character (models `str.lower` on the ASCII
header names compared against `COLUMNS`). -/
def lowerChar (c : Char) : Char :=
  if 'A' ≤ c ∧ c ≤ 'Z' then Char.ofNat (c.toNat + 32) else c

/-- Python's `str(x).strip().lower()` as used on header cells. -/
def stripLower (s : String) : String :=
  String.mk ((((s.data.dropWhile isSpaceChar).reverse.dropWhile
    isSpaceChar).reverse).map lowerChar)

/-! ### Dates -/

/-- A calendar date as held by `datetime.date` / a pandas timestamp at
midnight. -/
structure Date where
  year : ℕ
  month : ℕ
  day : ℕ
deriving DecidableEq, Repr

/-- Gregorian leap-year test. -/
def isLeap (y : ℕ) : Bool :=
  (y % 4 = 0 && y % 100 ≠ 0) || y % 400 = 0

/-- Number of days in a month. -/
def daysInMonth (y m : ℕ) : ℕ :=
  if m = 2 then (if isLeap y then 29 else 28)
  else if m = 4 ∨ m = 6 ∨ m = 9 ∨ m = 11 then 30
  else 31

/-- A date representable by `datetime.date` (year 1–9999, real calendar day),
hence parseable back by `pandas.to_datetime`. -/
def Date.valid (d : Date) : Bool :=
  1 ≤ d.year && d.year ≤ 9999 && 1 ≤ d.month && d.month ≤ 12 &&
    1 ≤ d.day && d.day ≤ daysInMonth d.year d.month

/-- Chronological key: valid dates compare exactly as timestamps do. -/
def Date.key (d : Date) : ℕ :=
  d.year * 10000 + d.month * 100 + d.day

instance : LE Date := ⟨fun a b => a.key ≤ b.key⟩

instance (a b : Date) : Decidable (a ≤ b) :=
  inferInstanceAs (Decidable (a.key ≤ b.key))

/-- Two-digit zero-padded numeral, as in `str(datetime.date)`. -/
def pad2Chars (n : ℕ) : List Char :=
  [digitChar (n / 10), digitChar (n % 10)]

/-- Four-digit zero-padded numeral, as in `str(datetime.date)`. -/
def pad4Chars (n : ℕ) : List Char :=
  [digitChar (n / 1000), digitChar (n / 100 % 10), digitChar (n / 10 % 10),
    digitChar (n % 10)]

/-- Python's `str(date_val)`: the ISO `YYYY-MM-DD` form. -/
def Date.toISO (d : Date) : String :=
  String.mk (pad4Chars d.year ++ '-' :: pad2Chars d.month ++ '-' :: pad2Chars d.day)

/-- Parse an ISO `YYYY-MM-DD` character list into a valid date. -/
def parseISO (l : List Char) : Option Date :=
  match splitOnSep '-' l with
  | [ys, ms, ds] =>
    match natFromDigits ys, natFromDigits ms, natFromDigits ds with
    | some y, some m, some d =>
      if Date.valid ⟨y, m, d⟩ then some ⟨y, m, d⟩ else none
    | _, _, _ => none
  | _ => none

/-- Models `pd.to_datetime(cell, errors="coerce")` on the date column:
string cells in the ISO form the program writes parse to a date, everything
else coerces to `NaT` (`none`). -/
def parseDate : Cell → Option Date
  | .str s => parseISO s.data
  | .num _ => none

/-! ### Amounts -/

/-- Parse an unsigned decimal numeral with optional fractional part. -/
def parseDecimalNonneg (l : List Char) : Option ℚ :=
  match splitOnSep '.' l with
  | [a] => (natFromDigits a).map (fun n => (n : ℚ))
  | [a, b] =>
    if a.isEmpty && b.isEmpty then none
    else
      match (if a.isEmpty then some 0 else natFromDigits a),
        (if b.isEmpty then some 0 else natFromDigits b) with
      | some na, some nb => some ((na : ℚ) + (nb : ℚ) / (10 : ℚ) ^ b.length)
      | _, _ => none
  | _ => none

/-- Parse a signed decimal numeral. -/
def parseDecimal (l : List Char) : Option ℚ :=
  match l with
  | '-' :: rest => (parseDecimalNonneg rest).map Neg.neg
  | _ => parseDecimalNonneg l

/-- Models `pd.to_numeric(cell, errors="coerce")` on the amount column: a
numeric cell keeps its value, a string cell is parsed as a decimal numeral,
anything unparseable coerces to `NaN` (`none`). -/
def parseAmount : Cell → Option ℚ
  | .num q => some q
  | .str s => parseDecimal s.data

/-! ### Worksheet operations (`get_worksheet`, `add_expense`) -/

/-- Overwrite the leading cells of a row with `vals`, keeping cells past
`vals.length` (what updating the range `A{r}:G{r}` does to row `r`). -/
def overwriteAG (old vals : List Cell) : List Cell :=
  vals ++ old.drop vals.length

/-- Models `ws.update("A{r}:G{r}", [vals])` for a 1-indexed row number `r`:
rewrite row `r` in place when it exists, else extend the sheet to row `r`. -/
def updateRow (store : Store) (r : ℕ) (vals : List Cell) : Store :=
  if r ≤ store.length then
    store.set (r - 1) (overwriteAG (store.getD (r - 1) []) vals)
  else
    store ++ List.replicate (r - store.length - 1) [] ++ [vals]

/-- Models `get_worksheet()`: whatever is there, force the header into
`A1:G1` (both branches of the Python `if` perform the same update).
`@st.cache_resource` makes the real function run its body once per process;
we model every operation as performing it, which matches the first
operation of a process and is idempotent afterwards. -/
def get_worksheet (store : Store) : Store :=
  updateRow store 1 headerCells

/-- The row `add_expense` builds, "exactly matching A..G": the ISO date
string, raw strings for category / payment method / frequency, `x or ""`
for the two optional strings, and the numeric `float(amount)`. -/
def expenseRow (date_val : Date) (category : String) (desc : Option String)
    (amount : ℚ) (payment_method : String) (frequency : String)
    (notes : Option String) : List Cell :=
  [Cell.str date_val.toISO, Cell.str category, Cell.str (desc.getD ""),
    Cell.num amount, Cell.str payment_method, Cell.str frequency,
    Cell.str (notes.getD "")]

/-- Models `add_expense`: ensure the worksheet handle (header forced), read
`get_all_values`, compute the next empty row index, and write the row to
columns A..G of that row. -/
def add_expense (store : Store) (date_val : Date) (category : String)
    (desc : Option String) (amount : ℚ) (payment_method : String)
    (frequency : String) (notes : Option String) : Store :=
  let ws := get_worksheet store
  let values := ws
  let ws2 := if values.isEmpty then updateRow ws 1 headerCells else ws
  let next_row := if values.isEmpty then 2 else values.length + 1
  updateRow ws2 next_row
    (expenseRow date_val category desc amount payment_method frequency notes)

/-! ### Reading (`get_expenses`) -/

/-- One row of the dataframe `get_expenses` returns: the date column parsed
to timestamps, the amount column parsed to numerics, the other five columns
kept as raw cells. -/
structure Expense where
  date : Date
  category : Cell
  description : Cell
  amount : ℚ
  payment_method : Cell
  frequency : Cell
  notes : Cell
deriving DecidableEq, Repr

/-- The dataframe shape: its column labels and its rows. -/
structure DF where
  columns : List String
  rows : List Expense
deriving DecidableEq, Repr

/-- Normalisation of a header cell for the schema check:
`str(x).strip().lower()`. A numeric cell displays as a numeral, which never
equals a column name, so for the only comparison this feeds (equality with
`COLUMNS`) rendering it as the empty string — also never a column name — is
equivalent. -/
def cellNorm : Cell → String
  | .str s => stripLower s
  | .num _ => ""

/-- The `normalized_header != COLUMNS` check of `get_expenses`. -/
def headerMatches (header : List Cell) : Bool :=
  decide (header.map cellNorm = COLUMNS)

/-- Row-length normalisation of `get_expenses`: pad short rows with `""` on
the right, truncate long rows to the first seven cells. -/
def normalizeRow (row : List Cell) : List Cell :=
  if row.length < COLUMNS.length then
    row ++ List.replicate (COLUMNS.length - row.length) (Cell.str "")
  else
    row.take COLUMNS.length

/-- The rows treated as data: drop the header row when it matches the
schema, otherwise treat every row (header included) as data. -/
def dataRows (values : Store) : Store :=
  if headerMatches (values.headD []) then values.tail else values

/-- Per-row effect of the dataframe type conversions: parse the date
(`none` = the row is dropped by `dropna`), default an unparseable amount to
`0.0` (`fillna`), keep the other cells raw. -/
def parseRow (row : List Cell) : Option Expense :=
  match parseDate (row.getD 0 (Cell.str "")) with
  | none => none
  | some d =>
    some
      { date := d
        category := row.getD 1 (Cell.str "")
        description := row.getD 2 (Cell.str "")
        amount := (parseAmount (row.getD 3 (Cell.str ""))).getD 0
        payment_method := row.getD 4 (Cell.str "")
        frequency := row.getD 5 (Cell.str "")
        notes := row.getD 6 (Cell.str "") }

/-- Descending-date comparator used by `sort_values(by="date",
ascending=False)`. -/
def dateGe (a b : Expense) : Bool :=
  decide (b.date ≤ a.date)

/-- The `if start_date: df = df[df["date"] >= ...]` reassignment. -/
def applyStart (start_date : Option Date) (df : List Expense) : List Expense :=
  match start_date with
  | some s => df.filter (fun (e : Expense) => decide (s ≤ e.date))
  | none => df

/-- The `if end_date: df = df[df["date"] <= ...]` reassignment. -/
def applyEnd (end_date : Option Date) (df : List Expense) : List Expense :=
  match end_date with
  | some e0 => df.filter (fun (e : Expense) => decide (e.date ≤ e0))
  | none => df

/-- The `if category and category != "All": df = df[df["category"] ==
category]` reassignment (`None` and `""` are falsy). -/
def applyCat (category : Option String) (df : List Expense) : List Expense :=
  match category with
  | some c =>
    if c ≠ "" && c ≠ "All" then
      df.filter (fun (e : Expense) => decide (e.category = Cell.str c))
    else df
  | none => df

/-- Models `get_expenses(start_date, end_date, category)`: ensure the
worksheet, read all values, return an empty frame on a header-only sheet,
normalise rows, build the frame, convert types and drop dateless rows
(`parseRow`), apply the three optional filters in order, and sort latest
first. -/
def get_expenses (store : Store) (start_date : Option Date)
    (end_date : Option Date) (category : Option String) : DF :=
  if (get_worksheet store).length ≤ 1 then ⟨COLUMNS, []⟩
  else if ((dataRows (get_worksheet store)).map normalizeRow).isEmpty then
    ⟨COLUMNS, []⟩
  else
    ⟨COLUMNS,
      (applyCat category (applyEnd end_date (applyStart start_date
        (((dataRows (get_worksheet store)).map normalizeRow).filterMap
          parseRow)))).mergeSort dateGe⟩

/-! ### The UI save handler (`main`, "Save Expense" branch) -/

/-- Outcome shown by the save button. -/
inductive SaveResult where
  | saved (msg : String)
  | error (msg : String)
deriving DecidableEq, Repr

/-- Models the `st.button("Save Expense")` handler in `main`: validate
`amount > 0` locally, write through `add_expense` on success, otherwise show
an error and touch nothing. -/
def save_expense (store : Store) (exp_date : Date) (amount : ℚ)
    (category : String) (description : String) (payment_method : String)
    (frequency : String) (notes : String) : Store × SaveResult :=
  if 0 < amount then
    (add_expense store exp_date category (some description) amount
        payment_method frequency (some notes),
      SaveResult.saved "Expense saved (stored in Google Sheets)")
  else
    (store, SaveResult.error "Amount must be greater than 0.")

/-- The parsed records of a store, before any filtering or sorting: the
value the `df` variable of `get_expenses` holds right after
`dropna(subset=["date"])`. -/
def validRecords (store : Store) : List Expense :=
  if (get_worksheet store).length ≤ 1 then []
  else ((dataRows (get_worksheet store)).map normalizeRow).filterMap parseRow

/-- Truth value of the `start_date` filter of `get_expenses` for one row. -/
def passesStart (a : Option Date) (d : Date) : Bool :=
  match a with
  | none => true
  | some s => decide (s ≤ d)

/-- Truth value of the `end_date` filter of `get_expenses` for one row. -/
def passesEnd (b : Option Date) (d : Date) : Bool :=
  match b with
  | none => true
  | some e0 => decide (d ≤ e0)

/-- Truth value of the `category` filter of `get_expenses` for one row:
falsy or `"All"` values bypass the filter. -/
def passesCat (c : Option String) (cat : Cell) : Bool :=
  match c with
  | none => true
  | some s => if s ≠ "" && s ≠ "All" then decide (cat = Cell.str s) else true

/-- The expense record that writing the given fields should read back as. -/
def expenseOf (date_val : Date) (category : String) (desc : Option String)
    (amount : ℚ) (payment_method : String) (frequency : String)
    (notes : Option String) : Expense :=
  { date := date_val
    category := Cell.str category
    description := Cell.str (desc.getD "")
    amount := amount
    payment_method := Cell.str payment_method
    frequency := Cell.str frequency
    notes := Cell.str (notes.getD "") }

/-! ### Basic lemmas: digits, splitting, the date round trip -/

theorem COLUMNS_length : COLUMNS.length = 7 := rfl

theorem headerCells_length : headerCells.length = 7 := rfl

theorem digitChar_ne_dash (k : ℕ) : digitChar k ≠ '-' := by
  unfold digitChar
  repeat' split
  all_goals decide

theorem digitVal?_digitChar (k : ℕ) (h : k < 10) :
    digitVal? (digitChar k) = some k := by
  interval_cases k <;> decide

theorem natFromDigits_pad2 (n : ℕ) (h : n < 100) :
    natFromDigits (pad2Chars n) = some n := by
  have h1 : n / 10 < 10 := by omega
  have h2 : n % 10 < 10 := by omega
  simp only [natFromDigits, pad2Chars, List.isEmpty, List.foldl,
    digitVal?_digitChar _ h1, digitVal?_digitChar _ h2,
    Bool.false_eq_true, if_false]
  congr 1
  omega

theorem natFromDigits_pad4 (n : ℕ) (h : n < 10000) :
    natFromDigits (pad4Chars n) = some n := by
  have h1 : n / 1000 < 10 := by omega
  have h2 : n / 100 % 10 < 10 := by omega
  have h3 : n / 10 % 10 < 10 := by omega
  have h4 : n % 10 < 10 := by omega
  simp only [natFromDigits, pad4Chars, List.isEmpty, List.foldl,
    digitVal?_digitChar _ h1, digitVal?_digitChar _ h2,
    digitVal?_digitChar _ h3, digitVal?_digitChar _ h4,
    Bool.false_eq_true, if_false]
  congr 1
  omega

theorem splitOnSep_ne_nil (sep : Char) (l : List Char) :
    splitOnSep sep l ≠ [] := by
  induction l with
  | nil => simp [splitOnSep]
  | cons c rest ih =>
    simp only [splitOnSep]
    split
    · simp
    · cases h : splitOnSep sep rest with
      | nil => exact absurd h ih
      | cons a t => simp

theorem splitOnSep_no_sep (sep : Char) (l : List Char)
    (h : ∀ c ∈ l, c ≠ sep) : splitOnSep sep l = [l] := by
  induction l with
  | nil => rfl
  | cons c rest ih =>
    have hc : c ≠ sep := h c (by simp)
    have hrest : splitOnSep sep rest = [rest] :=
      ih (fun x hx => h x (by simp [hx]))
    simp [splitOnSep, hc, hrest]

theorem splitOnSep_append (sep : Char) (a rest : List Char)
    (h : ∀ c ∈ a, c ≠ sep) :
    splitOnSep sep (a ++ sep :: rest) = a :: splitOnSep sep rest := by
  induction a with
  | nil => simp [splitOnSep]
  | cons c t ih =>
    have hc : c ≠ sep := h c (by simp)
    have ht := ih (fun x hx => h x (by simp [hx]))
    simp [splitOnSep, hc, ht]

theorem mem_pad2Chars (n : ℕ) (c : Char) (h : c ∈ pad2Chars n) :
    ∃ k, c = digitChar k := by
  simp only [pad2Chars, List.mem_cons, List.not_mem_nil, or_false] at h
  rcases h with h | h <;> exact ⟨_, h⟩

theorem mem_pad4Chars (n : ℕ) (c : Char) (h : c ∈ pad4Chars n) :
    ∃ k, c = digitChar k := by
  simp only [pad4Chars, List.mem_cons, List.not_mem_nil, or_false] at h
  rcases h with h | h | h | h <;> exact ⟨_, h⟩

theorem daysInMonth_le (y m : ℕ) : daysInMonth y m ≤ 31 := by
  unfold daysInMonth
  repeat' split
  all_goals omega

theorem parseISO_toISO (d : Date) (h : d.valid = true) :
    parseISO d.toISO.data = some d := by
  obtain ⟨y, m, dd⟩ := d
  simp only [Date.valid, Bool.and_eq_true, decide_eq_true_eq] at h
  have hdata : (Date.toISO ⟨y, m, dd⟩).data =
      pad4Chars y ++ '-' :: (pad2Chars m ++ '-' :: pad2Chars dd) := rfl
  have h4 : ∀ c ∈ pad4Chars y, c ≠ '-' := by
    intro c hc
    obtain ⟨k, rfl⟩ := mem_pad4Chars y c hc
    exact digitChar_ne_dash k
  have h2 : ∀ c ∈ pad2Chars m, c ≠ '-' := by
    intro c hc
    obtain ⟨k, rfl⟩ := mem_pad2Chars m c hc
    exact digitChar_ne_dash k
  have h2' : ∀ c ∈ pad2Chars dd, c ≠ '-' := by
    intro c hc
    obtain ⟨k, rfl⟩ := mem_pad2Chars dd c hc
    exact digitChar_ne_dash k
  have hsplit : splitOnSep '-' (Date.toISO ⟨y, m, dd⟩).data =
      [pad4Chars y, pad2Chars m, pad2Chars dd] := by
    rw [hdata, splitOnSep_append '-' _ _ h4, splitOnSep_append '-' _ _ h2,
      splitOnSep_no_sep '-' _ h2']
  have hdd : dd < 100 := by
    have := daysInMonth_le y m
    omega
  have hvalid : Date.valid ⟨y, m, dd⟩ = true := by
    simp only [Date.valid, Bool.and_eq_true, decide_eq_true_eq]
    exact h
  simp [parseISO, hsplit, natFromDigits_pad4 y (by omega),
    natFromDigits_pad2 m (by omega), natFromDigits_pad2 dd hdd, hvalid]

theorem parseDate_toISO (d : Date) (h : d.valid = true) :
    parseDate (Cell.str d.toISO) = some d :=
  parseISO_toISO d h

/-! ### Worksheet-shape lemmas -/

theorem get_worksheet_nil : get_worksheet [] = [headerCells] := rfl

theorem get_worksheet_cons (h : List Cell) (t : Store) :
    get_worksheet (h :: t) = (headerCells ++ h.drop 7) :: t := by
  simp [get_worksheet, updateRow, overwriteAG, headerCells_length]

theorem get_worksheet_ne_nil (store : Store) : get_worksheet store ≠ [] := by
  cases store with
  | nil => simp [get_worksheet_nil]
  | cons h t => simp [get_worksheet_cons]

theorem get_worksheet_append_fix (store : Store) (t : Store) :
    get_worksheet (get_worksheet store ++ t) = get_worksheet store ++ t := by
  cases store with
  | nil =>
    simp [get_worksheet_nil, get_worksheet_cons, headerCells_length]
  | cons h s' =>
    rw [get_worksheet_cons]
    simp only [List.cons_append, get_worksheet_cons]
    rw [List.drop_left' headerCells_length]

theorem add_expense_eq (store : Store) (d : Date) (cat : String)
    (desc : Option String) (amount : ℚ) (pm fr : String)
    (notes : Option String) :
    add_expense store d cat desc amount pm fr notes =
      get_worksheet store ++ [expenseRow d cat desc amount pm fr notes] := by
  have hne : (get_worksheet store).isEmpty = false := by
    cases hgw : get_worksheet store with
    | nil => exact absurd hgw (get_worksheet_ne_nil store)
    | cons a l => rfl
  have hlen : ¬ (get_worksheet store).length + 1 ≤ (get_worksheet store).length := by
    omega
  simp only [add_expense, hne, Bool.false_eq_true, if_false, updateRow,
    hlen]
  have : (get_worksheet store).length + 1 - (get_worksheet store).length - 1 = 0 := by
    omega
  simp [this]

theorem normalizeRow_length (row : List Cell) :
    (normalizeRow row).length = 7 := by
  unfold normalizeRow
  rw [COLUMNS_length]
  split
  · simp only [List.length_append, List.length_replicate]
    omega
  · simp only [List.length_take]
    omega

theorem normalizeRow_of_length_seven (row : List Cell)
    (h : row.length = 7) : normalizeRow row = row := by
  unfold normalizeRow
  rw [COLUMNS_length]
  rw [if_neg (by omega)]
  rw [← h, List.take_length]

theorem expenseRow_length (d : Date) (cat : String) (desc : Option String)
    (amount : ℚ) (pm fr : String) (notes : Option String) :
    (expenseRow d cat desc amount pm fr notes).length = 7 := rfl

theorem parseRow_expenseRow (d : Date) (cat : String) (desc : Option String)
    (amount : ℚ) (pm fr : String) (notes : Option String)
    (h : d.valid = true) :
    parseRow (expenseRow d cat desc amount pm fr notes) =
      some (expenseOf d cat desc amount pm fr notes) := by
  simp [parseRow, expenseRow, expenseOf, parseDate_toISO d h, parseAmount,
    List.getD]

/-! ### Membership in query results -/

theorem mem_applyStart (a : Option Date) (l : List Expense) (e : Expense)
    (he : e ∈ l) (ha : passesStart a e.date = true) : e ∈ applyStart a l := by
  cases a with
  | none => exact he
  | some s =>
    exact List.mem_filter.mpr ⟨he, by simpa [passesStart] using ha⟩

theorem mem_applyEnd (b : Option Date) (l : List Expense) (e : Expense)
    (he : e ∈ l) (hb : passesEnd b e.date = true) : e ∈ applyEnd b l := by
  cases b with
  | none => exact he
  | some e0 =>
    exact List.mem_filter.mpr ⟨he, by simpa [passesEnd] using hb⟩

theorem mem_applyCat (c : Option String) (l : List Expense) (e : Expense)
    (he : e ∈ l) (hc : passesCat c e.category = true) : e ∈ applyCat c l := by
  cases c with
  | none => exact he
  | some s =>
    simp only [applyCat]
    by_cases hs : (decide (s ≠ "") && decide (s ≠ "All")) = true
    · rw [if_pos hs]
      refine List.mem_filter.mpr ⟨he, ?_⟩
      have hcs := hc
      simp only [passesCat, hs, if_true] at hcs
      exact hcs
    · rw [if_neg hs]
      exact he

theorem mem_of_applyStart (a : Option Date) (l : List Expense) (e : Expense)
    (he : e ∈ applyStart a l) : e ∈ l := by
  cases a with
  | none => exact he
  | some s => exact (List.mem_filter.mp he).1

theorem mem_of_applyEnd (b : Option Date) (l : List Expense) (e : Expense)
    (he : e ∈ applyEnd b l) : e ∈ l := by
  cases b with
  | none => exact he
  | some e0 => exact (List.mem_filter.mp he).1

theorem mem_of_applyCat (c : Option String) (l : List Expense) (e : Expense)
    (he : e ∈ applyCat c l) : e ∈ l := by
  cases c with
  | none => exact he
  | some s =>
    simp only [applyCat] at he
    by_cases hs : (decide (s ≠ "") && decide (s ≠ "All")) = true
    · rw [if_pos hs] at he
      exact (List.mem_filter.mp he).1
    · rw [if_neg hs] at he
      exact he

theorem mem_get_expenses_aux (v : Store) (hfix : get_worksheet v = v)
    (hlen2 : 2 ≤ v.length) (row : List Cell) (hmem : row ∈ v.tail)
    (e : Expense) (hlen : row.length = 7) (hp : parseRow row = some e)
    (a b : Option Date) (c : Option String)
    (ha : passesStart a e.date = true) (hb : passesEnd b e.date = true)
    (hc : passesCat c e.category = true) :
    e ∈ (get_expenses v a b c).rows := by
  have hnotle : ¬ v.length ≤ 1 := by omega
  have hrowdr : row ∈ dataRows v := by
    unfold dataRows
    split
    · exact hmem
    · exact List.mem_of_mem_tail hmem
  have hnr : normalizeRow row ∈ (dataRows v).map normalizeRow :=
    List.mem_map.mpr ⟨row, hrowdr, rfl⟩
  have hne : ((dataRows v).map normalizeRow).isEmpty = false := by
    cases hd : (dataRows v).map normalizeRow with
    | nil => rw [hd] at hnr; cases hnr
    | cons x l => rfl
  have hmem1 : e ∈ ((dataRows v).map normalizeRow).filterMap parseRow :=
    List.mem_filterMap.mpr ⟨normalizeRow row, hnr,
      by rw [normalizeRow_of_length_seven row hlen, hp]⟩
  unfold get_expenses
  rw [hfix, if_neg hnotle, if_neg (by simp [hne])]
  exact List.mem_mergeSort.mpr
    (mem_applyCat c _ e (mem_applyEnd b _ e (mem_applyStart a _ e hmem1 ha) hb) hc)

theorem mem_tail_append_last (s : Store) (r : List Cell) (hs : s ≠ []) :
    r ∈ (s ++ [r]).tail := by
  cases s with
  | nil => exact absurd rfl hs
  | cons h t => simp

theorem mem_get_expenses_add (store : Store) (d : Date) (cat : String)
    (desc : Option String) (amount : ℚ) (pm fr : String)
    (notes : Option String) (a b : Option Date) (c : Option String)
    (hd : d.valid = true)
    (ha : passesStart a d = true) (hb : passesEnd b d = true)
    (hc : passesCat c (Cell.str cat) = true) :
    expenseOf d cat desc amount pm fr notes ∈
      (get_expenses (add_expense store d cat desc amount pm fr notes)
        a b c).rows := by
  rw [add_expense_eq]
  have hlen2 : 2 ≤ (get_worksheet store ++
      [expenseRow d cat desc amount pm fr notes]).length := by
    have h1 : 0 < (get_worksheet store).length :=
      List.length_pos.mpr (get_worksheet_ne_nil store)
    simp only [List.length_append, List.length_cons, List.length_nil]
    omega
  exact mem_get_expenses_aux _
    (get_worksheet_append_fix store _) hlen2 _
    (mem_tail_append_last _ _ (get_worksheet_ne_nil store)) _
    (expenseRow_length d cat desc amount pm fr notes)
    (parseRow_expenseRow d cat desc amount pm fr notes hd) a b c ha hb hc

/-! ### Comparator facts for the sort -/

theorem Date.le_def (a b : Date) : (a ≤ b) = (a.key ≤ b.key) := rfl

theorem dateGe_trans (x y z : Expense) (h1 : dateGe x y = true)
    (h2 : dateGe y z = true) : dateGe x z = true := by
  simp only [dateGe, decide_eq_true_eq, Date.le_def] at *
  omega

theorem dateGe_total (x y : Expense) : (dateGe x y || dateGe y x) = true := by
  simp only [dateGe, Bool.or_eq_true, decide_eq_true_eq]
  exact Nat.le_total y.date.key x.date.key

/-! ### Claim theorems -/

/-- C1: for every record with amount > 0 and a parseable (valid) date,
calling `add_expense` with that record's fields and then `get_expenses`
with no filters, or with any filters the record satisfies, returns a result
containing that record. -/
theorem claim_C1_append_then_query (store : Store) (d : Date) (cat : String)
    (desc : Option String) (amount : ℚ) (pm fr : String)
    (notes : Option String) (a b : Option Date) (c : Option String)
    (hd : d.valid = true) (hamt : 0 < amount)
    (ha : passesStart a d = true) (hb : passesEnd b d = true)
    (hc : passesCat c (Cell.str cat) = true) :
    expenseOf d cat desc amount pm fr notes ∈
      (get_expenses (add_expense store d cat desc amount pm fr notes)
        a b c).rows :=
  mem_get_expenses_add store d cat desc amount pm fr notes a b c hd ha hb hc

/-- Witness for C1 at a concrete record and empty store, unfiltered. -/
theorem claim_C1_append_then_query_witness :
    expenseOf ⟨2024, 1, 5⟩ "Supplements" (some "Whey") 1500 "UPI" "One-time"
        (some "") ∈
      (get_expenses (add_expense [] ⟨2024, 1, 5⟩ "Supplements" (some "Whey")
        1500 "UPI" "One-time" (some "")) none none none).rows :=
  claim_C1_append_then_query [] ⟨2024, 1, 5⟩ "Supplements" (some "Whey") 1500
    "UPI" "One-time" (some "") none none none (by decide) (by decide) rfl rfl
    rfl

/-- C2: a record written via `add_expense` and read back via `get_expenses`
has identical category, payment-method, frequency, description and notes
strings, its amount is recovered exactly (the model of "equal within
floating-point tolerance"), and a `None` description or notes is written
and read back as the empty string. -/
theorem claim_C2_roundtrip (store : Store) (d : Date) (cat : String)
    (desc : Option String) (amount : ℚ) (pm fr : String)
    (notes : Option String) (hd : d.valid = true) :
    ∃ e ∈ (get_expenses (add_expense store d cat desc amount pm fr notes)
        none none none).rows,
      e.category = Cell.str cat ∧ e.payment_method = Cell.str pm ∧
      e.frequency = Cell.str fr ∧ e.description = Cell.str (desc.getD "") ∧
      e.notes = Cell.str (notes.getD "") ∧ e.amount = amount ∧
      (desc = none → e.description = Cell.str "") ∧
      (notes = none → e.notes = Cell.str "") := by
  refine ⟨expenseOf d cat desc amount pm fr notes,
    mem_get_expenses_add store d cat desc amount pm fr notes none none none
      hd rfl rfl rfl, rfl, rfl, rfl, rfl, rfl, rfl, ?_, ?_⟩
  · intro h
    rw [h]
    rfl
  · intro h
    rw [h]
    rfl

/-- Witness for C2 at a concrete record with `None` description and notes. -/
theorem claim_C2_roundtrip_witness :
    ∃ e ∈ (get_expenses (add_expense [] ⟨2024, 1, 5⟩ "Supplements" none 1500
        "UPI" "One-time" none) none none none).rows,
      e.category = Cell.str "Supplements" ∧ e.payment_method = Cell.str "UPI" ∧
      e.frequency = Cell.str "One-time" ∧
      e.description = Cell.str ((none : Option String).getD "") ∧
      e.notes = Cell.str ((none : Option String).getD "") ∧ e.amount = 1500 ∧
      ((none : Option String) = none → e.description = Cell.str "") ∧
      ((none : Option String) = none → e.notes = Cell.str "") :=
  claim_C2_roundtrip [] ⟨2024, 1, 5⟩ "Supplements" none 1500 "UPI" "One-time"
    none (by decide)

/-- C3: for every store contents and every combination of filter arguments,
the sequence returned by `get_expenses` is ordered by date descending. -/
theorem claim_C3_sorted_desc (store : Store) (a b : Option Date)
    (c : Option String) :
    List.Pairwise (fun x y : Expense => y.date ≤ x.date)
      (get_expenses store a b c).rows := by
  unfold get_expenses
  split
  · simp
  · split
    · simp
    · refine List.Pairwise.imp ?_
        (List.sorted_mergeSort dateGe_trans dateGe_total
          (applyCat c (applyEnd b (applyStart a _))))
      intro x y h
      simpa [dateGe] using h

/-- C6: for every submitted amount ≤ 0, the save handler rejects the append
with the error message, attempts no write, and leaves the store unchanged. -/
theorem claim_C6_reject_nonpositive (store : Store) (d : Date) (amount : ℚ)
    (cat de pm fr no : String) (h : amount ≤ 0) :
    save_expense store d amount cat de pm fr no =
      (store, SaveResult.error "Amount must be greater than 0.") := by
  unfold save_expense
  rw [if_neg (not_lt.mpr h)]

/-- Witness for C6 at amount zero on a concrete store. -/
theorem claim_C6_reject_nonpositive_witness :
    save_expense [headerCells] ⟨2024, 1, 5⟩ 0 "Other" "d" "UPI" "Monthly"
        "n" =
      ([headerCells], SaveResult.error "Amount must be greater than 0.") :=
  claim_C6_reject_nonpositive [headerCells] ⟨2024, 1, 5⟩ 0 "Other" "d" "UPI"
    "Monthly" "n" (by decide)

/-- C8: every stored row is normalised to exactly the seven schema columns
before parsing and filtering: short rows are padded with empty strings on
the right, long rows are truncated to the first seven cells. -/
theorem claim_C8_normalize (row : List Cell) :
    (normalizeRow row).length = 7 ∧
    (row.length < 7 →
      normalizeRow row = row ++ List.replicate (7 - row.length) (Cell.str "")) ∧
    (7 ≤ row.length → normalizeRow row = row.take 7) := by
  refine ⟨normalizeRow_length row, ?_, ?_⟩
  · intro h
    unfold normalizeRow
    rw [COLUMNS_length, if_pos h]
  · intro h
    unfold normalizeRow
    rw [COLUMNS_length, if_neg (by omega)]

/-- Witness for C8: a three-cell row is padded, a nine-cell row truncated. -/
theorem claim_C8_normalize_witness :
    (normalizeRow [Cell.str "a", Cell.str "b", Cell.str "c"] =
      [Cell.str "a", Cell.str "b", Cell.str "c"] ++
        List.replicate (7 - 3) (Cell.str "")) ∧
    (normalizeRow (List.replicate 9 (Cell.str "x")) =
      (List.replicate 9 (Cell.str "x")).take 7) :=
  ⟨(claim_C8_normalize [Cell.str "a", Cell.str "b", Cell.str "c"]).2.1
      (by decide),
    (claim_C8_normalize (List.replicate 9 (Cell.str "x"))).2.2 (by decide)⟩

/-! ### Filter-stage equations -/

theorem rows_mk (cols : List String) (l : List Expense) :
    (DF.mk cols l).rows = l := rfl

theorem applyStart_none (l : List Expense) : applyStart none l = l := rfl

theorem applyEnd_none (l : List Expense) : applyEnd none l = l := rfl

theorem applyCat_none (l : List Expense) : applyCat none l = l := rfl

theorem applyStart_some (s : Date) (l : List Expense) :
    applyStart (some s) l =
      l.filter (fun (e : Expense) => decide (s ≤ e.date)) := rfl

theorem applyEnd_some (e0 : Date) (l : List Expense) :
    applyEnd (some e0) l =
      l.filter (fun (e : Expense) => decide (e.date ≤ e0)) := rfl

theorem applyCat_all (l : List Expense) : applyCat (some "All") l = l := by
  simp [applyCat]

/-- C4: `get_expenses(start, end)` returns exactly the parsed records whose
date lies in the inclusive range `start ≤ date ≤ end`, and omitting every
filter returns all records with a parseable date (both up to the reordering
done by the final sort). -/
theorem claim_C4_date_range (store : Store) (s e0 : Date) :
    List.Perm (get_expenses store (some s) (some e0) none).rows
      ((validRecords store).filter
        (fun (x : Expense) => decide (s ≤ x.date) && decide (x.date ≤ e0)))
    ∧ List.Perm (get_expenses store none none none).rows
      (validRecords store) := by
  constructor
  · unfold get_expenses validRecords
    split
    · next h =>
      simp
    · next h =>
      split
      · next hemp =>
        rw [List.isEmpty_iff.mp hemp]
        simp
      · next hemp =>
        rw [rows_mk]
        refine (List.mergeSort_perm _ _).trans ?_
        rw [applyCat_none, applyEnd_some, applyStart_some, List.filter_filter]
        rw [List.filter_congr
          (fun (x : Expense) _ => Bool.and_comm
            (decide (x.date ≤ e0)) (decide (s ≤ x.date)))]
  · unfold get_expenses validRecords
    split
    · next h =>
      simp
    · next h =>
      split
      · next hemp =>
        rw [List.isEmpty_iff.mp hemp]
        simp
      · next hemp =>
        rw [rows_mk]
        exact List.mergeSort_perm _ _

/-- C5: `category="All"` applies no category filtering at all, and any other
non-empty category value returns only records whose category cell is exactly
that string. -/
theorem claim_C5_category (store : Store) (a b : Option Date) (c : String) :
    (get_expenses store a b (some "All")).rows =
      (get_expenses store a b none).rows
    ∧ (c ≠ "" → c ≠ "All" →
      ((get_expenses store a b (some c)).rows.all
        (fun (e : Expense) => decide (e.category = Cell.str c))) = true) := by
  constructor
  · unfold get_expenses
    rw [applyCat_all, applyCat_none]
  · intro h1 h2
    rw [List.all_eq_true]
    intro e he
    unfold get_expenses at he
    split at he
    · simp [rows_mk] at he
    · split at he
      · simp [rows_mk] at he
      · rw [rows_mk, List.mem_mergeSort] at he
        have hcond : (decide (c ≠ "") && decide (c ≠ "All")) = true := by
          simp [h1, h2]
        simp only [applyCat] at he
        rw [if_pos hcond] at he
        exact (List.mem_filter.mp he).2

/-- Witness for C5 on a concrete store and the category "Supplements". -/
theorem claim_C5_category_witness :
    ((get_expenses [] none none (some "All")).rows =
      (get_expenses [] none none none).rows)
    ∧ (((get_expenses [] none none (some "Supplements")).rows.all
        (fun (e : Expense) =>
          decide (e.category = Cell.str "Supplements"))) = true) :=
  ⟨(claim_C5_category [] none none "Supplements").1,
    (claim_C5_category [] none none "Supplements").2 (by decide) (by decide)⟩

/-- C7: rows whose date cell does not parse are silently discarded, an
unparseable amount cell is coerced to `0.0`, and every row `get_expenses`
returns comes from a stored data row that parsed successfully (the reading
pipeline is total: malformed data never surfaces as an error). -/
theorem claim_C7_malformed (row : List Cell) (store : Store)
    (a b : Option Date) (c : Option String) :
    (parseDate ((normalizeRow row).getD 0 (Cell.str "")) = none →
      parseRow (normalizeRow row) = none)
    ∧ (∀ d : Date,
        parseDate ((normalizeRow row).getD 0 (Cell.str "")) = some d →
        parseAmount ((normalizeRow row).getD 3 (Cell.str "")) = none →
        parseRow (normalizeRow row) = some
          { date := d
            category := (normalizeRow row).getD 1 (Cell.str "")
            description := (normalizeRow row).getD 2 (Cell.str "")
            amount := 0
            payment_method := (normalizeRow row).getD 4 (Cell.str "")
            frequency := (normalizeRow row).getD 5 (Cell.str "")
            notes := (normalizeRow row).getD 6 (Cell.str "") })
    ∧ (∀ e ∈ (get_expenses store a b c).rows,
        ∃ r ∈ dataRows (get_worksheet store),
          parseRow (normalizeRow r) = some e) := by
  refine ⟨?_, ?_, ?_⟩
  · intro h
    unfold parseRow
    rw [h]
  · intro d hd hamt
    unfold parseRow
    rw [hd, hamt]
    rfl
  · intro e he
    unfold get_expenses at he
    split at he
    · simp [rows_mk] at he
    · split at he
      · simp [rows_mk] at he
      · rw [rows_mk, List.mem_mergeSort] at he
        have h1 := mem_of_applyStart a _ e
          (mem_of_applyEnd b _ e (mem_of_applyCat c _ e he))
        obtain ⟨x, hx, hpx⟩ := List.mem_filterMap.mp h1
        obtain ⟨r, hr, rfl⟩ := List.mem_map.mp hx
        exact ⟨r, hr, hpx⟩

/-- A manually-entered row whose date cell is not parseable. -/
def badDateRow : List Cell := [Cell.str "garbage"]

/-- A row with a parseable date but an unparseable amount cell. -/
def badAmountRow : List Cell :=
  [Cell.str "2024-01-05", Cell.str "Gym Membership", Cell.str "",
    Cell.str "abc", Cell.str "UPI", Cell.str "One-time", Cell.str ""]

/-- Witness for C7: the bad-date row is discarded and the bad-amount row is
kept with amount `0`. -/
theorem claim_C7_malformed_witness :
    parseRow (normalizeRow badDateRow) = none
    ∧ parseRow (normalizeRow badAmountRow) = some
        { date := ⟨2024, 1, 5⟩
          category := (normalizeRow badAmountRow).getD 1 (Cell.str "")
          description := (normalizeRow badAmountRow).getD 2 (Cell.str "")
          amount := 0
          payment_method := (normalizeRow badAmountRow).getD 4 (Cell.str "")
          frequency := (normalizeRow badAmountRow).getD 5 (Cell.str "")
          notes := (normalizeRow badAmountRow).getD 6 (Cell.str "") } :=
  ⟨(claim_C7_malformed badDateRow [] none none none).1 (by decide),
    (claim_C7_malformed badAmountRow [] none none none).2.1 ⟨2024, 1, 5⟩
      (by decide) (by decide)⟩

/-- A worksheet whose first row is a manually entered data row (no header). -/
def manualRow : List Cell :=
  [Cell.str "2024-01-05", Cell.str "Gym Membership", Cell.str "",
    Cell.num 100, Cell.str "UPI", Cell.str "One-time", Cell.str ""]

/-- Counterexample to C9: on a sheet whose first row is a manually entered
data record, `get_worksheet` — which every read and write performs first —
overwrites that record with the header, so the record is altered (in fact
destroyed) and a subsequent unfiltered read returns nothing. -/
theorem claim_C9_counterexample :
    get_worksheet [manualRow] = [headerCells]
    ∧ headerCells ≠ manualRow
    ∧ (get_expenses [manualRow] none none none).rows = [] := by
  refine ⟨by decide, by decide, by decide⟩

/-- C9 as amended: records written by `add_expense` are indeed immutable —
`add_expense` always appends a fresh row after all existing rows, and no
operation touches any row other than row 1 — but `get_worksheet`
unconditionally rewrites the first seven cells of row 1 with the header, so
a manual edit placing data in row 1 is altered on read rather than
tolerated unchanged. -/
theorem claim_C9_immutable_amended (store : Store) (d : Date) (cat : String)
    (desc : Option String) (amount : ℚ) (pm fr : String)
    (notes : Option String) :
    add_expense store d cat desc amount pm fr notes =
      get_worksheet store ++ [expenseRow d cat desc amount pm fr notes]
    ∧ (get_worksheet store).tail = store.tail
    ∧ get_worksheet store =
        (headerCells ++ (store.headD []).drop 7) :: store.tail := by
  refine ⟨add_expense_eq store d cat desc amount pm fr notes, ?_, ?_⟩
  · cases store with
    | nil => rfl
    | cons h t =>
      rw [get_worksheet_cons]
      rfl
  · cases store with
    | nil => simp [get_worksheet_nil]
    | cons h t => rw [get_worksheet_cons]; rfl

/-- C10: the frame returned by `get_expenses` always carries exactly the
seven schema columns, and an empty or header-only sheet yields the empty
frame with those columns rather than an error. -/
theorem claim_C10_columns (store : Store) (a b : Option Date)
    (c : Option String) :
    (get_expenses store a b c).columns = COLUMNS
    ∧ get_expenses [] a b c = ⟨COLUMNS, []⟩
    ∧ get_expenses [headerCells] a b c = ⟨COLUMNS, []⟩ := by
  refine ⟨?_, ?_, ?_⟩
  · unfold get_expenses
    split
    · rfl
    · split
      · rfl
      · rfl
  · unfold get_expenses
    rw [get_worksheet_nil, if_pos (by simp)]
  · unfold get_expenses
    rw [get_worksheet_cons, if_pos (by simp)]

end FitTrack
